import Mathlib

/-!
Verification of the twikoo-cloudflare comment backend (src/index.js) against its
natural-language specification.  The relevant parts of the worker are shallowly
embedded: the single `comment` table becomes a `List Comment`, each prepared SQL
statement becomes a Lean function on that list, and each handler becomes a pure
function from its inputs (parsed request fields, configuration, requester
identity) to its response value.
-/

namespace Twikoo

/-- One row of the `comment` table (src/index.js:240-248 lists the column order).
Only the columns consulted by the queries under verification are modelled:
identity, authorship, placement, moderation, pinning, timestamps and the
deserialized like set.  `isSpam` is stored as 0 (visible) / 1 (hidden) and
`top` as 0 / 1, matching the integer comparisons in the SQL. -/
structure Comment where
  _id : String
  uid : String
  ip : String
  url : String
  rid : String
  isSpam : Nat
  created : Int
  top : Nat
  like : List String
deriving DecidableEq

/-- Deployment configuration keys consumed by the handlers under verification
(the config blob of src/index.js:1036-1039).  An `Option` field set to `none`
models an unset key (JS `undefined`, `parseInt` of which is `NaN`). -/
structure Config where
  COMMENT_PAGE_SIZE : Option Nat := none
  TOP_DISABLED : Bool := false
  LIMIT_PER_MINUTE : Option Int := none
  LIMIT_PER_MINUTE_ALL : Option Int := none
deriving DecidableEq

/-- timestamp(2100/1/1) * 10 (src/index.js:516). -/
def MAX_TIMESTAMP_MILLIS : Int := 41025312000000

/-- Hard ceiling on the pinned-comment fetch (src/index.js:517). -/
def MAX_QUERY_LIMIT : Nat := 500

/-- `const limit = parseInt(config.COMMENT_PAGE_SIZE) || 8` (src/index.js:531):
an unset key parses to NaN and a configured 0 is falsy, so both fall back to 8. -/
def commentPageLimit (cfg : Config) : Nat :=
  match cfg.COMMENT_PAGE_SIZE with
  | none => 8
  | some n => if n = 0 then 8 else n

/-- The spam-flag parameter bound as `?2` in every read query:
`isAdminUser ? 2 : 1` (src/index.js:534, 540, 557, 569).  Stored `isSpam`
values are 0 or 1, so `isSpam != 2` holds for every row (admin sees all)
while `isSpam != 1` excludes hidden rows. -/
def spamFlagOf (isAdminUser : Bool) : Nat :=
  if isAdminUser then 2 else 1

/-- The visibility disjunct `(isSpam != ?2 OR uid = ?3)` shared by
commentCountQuery, commentQuery and the reply query (src/index.js:130, 139, 152). -/
def visibleTo (isAdminUser : Bool) (uid : String) (c : Comment) : Prop :=
  c.isSpam ≠ spamFlagOf isAdminUser ∨ c.uid = uid

instance (isAdminUser : Bool) (uid : String) (c : Comment) :
    Decidable (visibleTo isAdminUser uid c) := by
  unfold visibleTo
  infer_instance

/-- WHERE clause of DBBinding.commentQuery (src/index.js:134-146):
`url = ?1 AND (isSpam != ?2 OR uid = ?3) AND created < ?4 AND top = ?5 AND rid = ""`. -/
def commentQueryWhere (url : String) (spamFlag : Nat) (uid : String)
    (before : Int) (top : Nat) (c : Comment) : Prop :=
  c.url = url ∧ (c.isSpam ≠ spamFlag ∨ c.uid = uid) ∧
    c.created < before ∧ c.top = top ∧ c.rid = ""

instance (url : String) (spamFlag : Nat) (uid : String) (before : Int)
    (top : Nat) (c : Comment) :
    Decidable (commentQueryWhere url spamFlag uid before top c) := by
  unfold commentQueryWhere
  infer_instance

/-- `ORDER BY created DESC` realised as an insertion sort: place `c` in front of
the first element whose `created` it dominates. -/
def insertDesc (c : Comment) : List Comment → List Comment
  | [] => [c]
  | x :: xs => if x.created ≤ c.created then c :: x :: xs else x :: insertDesc c xs

/-- Sort a result set by `created` descending. -/
def sortDesc : List Comment → List Comment
  | [] => []
  | x :: xs => insertDesc x (sortDesc xs)

/-- DBBinding.commentQuery (src/index.js:134-146) run against the table:
filter by the WHERE clause, order by `created` descending, apply `LIMIT ?6`. -/
def commentQueryRun (db : List Comment) (url : String) (spamFlag : Nat)
    (uid : String) (before : Int) (top : Nat) (lim : Nat) : List Comment :=
  (sortDesc (db.filter (fun c => decide (commentQueryWhere url spamFlag uid before top c)))).take lim

/-- WHERE clause of DBBinding.commentCountQuery (src/index.js:127-132):
`url = ?1 AND rid = "" AND (isSpam != ?2 OR uid = ?3)`. -/
def commentCountWhere (url : String) (spamFlag : Nat) (uid : String) (c : Comment) : Prop :=
  c.url = url ∧ c.rid = "" ∧ (c.isSpam ≠ spamFlag ∨ c.uid = uid)

instance (url : String) (spamFlag : Nat) (uid : String) (c : Comment) :
    Decidable (commentCountWhere url spamFlag uid c) := by
  unfold commentCountWhere
  infer_instance

/-- DBBinding.commentCountQuery run against the table: `SELECT COUNT(*)`. -/
def commentCountQueryRun (db : List Comment) (url : String) (spamFlag : Nat)
    (uid : String) : Nat :=
  (db.filter (fun c => decide (commentCountWhere url spamFlag uid c))).length

/-- WHERE clause of the variable-width reply query built by
DBBinding.getReplyQuery (src/index.js:148-164):
`url = ?1 AND (isSpam != ?2 OR uid = ?3) AND rid IN ({{RIDS}})`.
For an empty id list SQLite evaluates `rid IN ()` as false, matching `c.rid ∈ []`. -/
def replyQueryWhere (url : String) (spamFlag : Nat) (uid : String)
    (rids : List String) (c : Comment) : Prop :=
  c.url = url ∧ (c.isSpam ≠ spamFlag ∨ c.uid = uid) ∧ c.rid ∈ rids

instance (url : String) (spamFlag : Nat) (uid : String) (rids : List String)
    (c : Comment) : Decidable (replyQueryWhere url spamFlag uid rids c) := by
  unfold replyQueryWhere
  infer_instance

/-- The reply query run against the table. -/
def replyQueryRun (db : List Comment) (url : String) (spamFlag : Nat)
    (uid : String) (rids : List String) : List Comment :=
  db.filter (fun c => decide (replyQueryWhere url spamFlag uid rids c))

/-- The main (non-pinned) fetch of commentGet (src/index.js:538-544):
`LIMIT limit + 1`, `top = 0`, cursor defaulted with `event.before ?? MAX_TIMESTAMP_MILLIS`. -/
def commentGetMainRaw (db : List Comment) (cfg : Config) (uid : String)
    (isAdminUser : Bool) (url : String) (before : Option Int) : List Comment :=
  commentQueryRun db url (spamFlagOf isAdminUser) uid
    (before.getD MAX_TIMESTAMP_MILLIS) 0 (commentPageLimit cfg + 1)

/-- `more` flag (src/index.js:546-548): an over-read of one row signals more pages. -/
def commentGetMore (db : List Comment) (cfg : Config) (uid : String)
    (isAdminUser : Bool) (url : String) (before : Option Int) : Bool :=
  decide ((commentGetMainRaw db cfg uid isAdminUser url before).length > commentPageLimit cfg)

/-- The returned non-pinned page (src/index.js:546-551): when the over-read hit,
`main.splice(limit, 1)` removes the one extra row at index `limit`. -/
def commentGetMainPage (db : List Comment) (cfg : Config) (uid : String)
    (isAdminUser : Bool) (url : String) (before : Option Int) : List Comment :=
  let main := commentGetMainRaw db cfg uid isAdminUser url before
  let limit := commentPageLimit cfg
  if main.length > limit then main.take limit ++ main.drop (limit + 1) else main

/-- The pinned fetch (src/index.js:552-559): guarded by
`!config.TOP_DISABLED && !event.before`.  JS truthiness makes a cursor of 0
count as absent, hence the `before = some 0` disjunct.  The query is the same
commentQuery with `top = 1`, the sentinel cursor and `LIMIT MAX_QUERY_LIMIT`. -/
def commentGetTop (db : List Comment) (cfg : Config) (uid : String)
    (isAdminUser : Bool) (url : String) (before : Option Int) : List Comment :=
  if cfg.TOP_DISABLED = false ∧ (before = none ∨ before = some 0) then
    commentQueryRun db url (spamFlagOf isAdminUser) uid MAX_TIMESTAMP_MILLIS 1 MAX_QUERY_LIMIT
  else []

/-- `main = [...top, ...main]` (src/index.js:560-564); when the pinned fetch is
skipped `top` stays `[]` and the merge is the identity. -/
def commentGetMerged (db : List Comment) (cfg : Config) (uid : String)
    (isAdminUser : Bool) (url : String) (before : Option Int) : List Comment :=
  commentGetTop db cfg uid isAdminUser url before ++
    commentGetMainPage db cfg uid isAdminUser url before

/-- The id list handed to the reply query: `main.map((item) => item._id)`
(src/index.js:569). -/
def commentGetReplyRids (db : List Comment) (cfg : Config) (uid : String)
    (isAdminUser : Bool) (url : String) (before : Option Int) : List String :=
  (commentGetMerged db cfg uid isAdminUser url before).map (fun c => c._id)

/-- src/index.js:566-570 calls `db.getReplyQuery(main.length)` unconditionally:
the reply membership query is always issued, and `some n` records that it was
issued with `n` id parameters (there is no code path producing `none`). -/
def commentGetReplyQueryIssuedArity (db : List Comment) (cfg : Config) (uid : String)
    (isAdminUser : Bool) (url : String) (before : Option Int) : Option Nat :=
  some (commentGetMerged db cfg uid isAdminUser url before).length

/-- The reply rows fetched for the page (src/index.js:566-570). -/
def commentGetReplies (db : List Comment) (cfg : Config) (uid : String)
    (isAdminUser : Bool) (url : String) (before : Option Int) : List Comment :=
  replyQueryRun db url (spamFlagOf isAdminUser) uid
    (commentGetReplyRids db cfg uid isAdminUser url before)

/-- Response of commentGet (src/index.js:525-579).  `data` is the row list
`[...main, ...reply]` handed to the external presenter `parseComment`
(deserialization of `like` is inherent in the `Comment` model). -/
structure CommentGetRes where
  data : List Comment
  more : Bool
  count : Nat
deriving DecidableEq

/-- commentGet (src/index.js:525-579) assembled from its steps. -/
def commentGet (db : List Comment) (cfg : Config) (uid : String)
    (isAdminUser : Bool) (url : String) (before : Option Int) : CommentGetRes :=
  { data := commentGetMerged db cfg uid isAdminUser url before ++
      commentGetReplies db cfg uid isAdminUser url before
  , more := commentGetMore db cfg uid isAdminUser url before
  , count := commentCountQueryRun db url (spamFlagOf isAdminUser) uid }

/-! ### Rate limiter (src/index.js:874-892) -/

/-- `parseInt(config.LIMIT_PER_MINUTE)` with the NaN fallback to 10
(src/index.js:876-877). -/
def limitPerMinuteOf (cfg : Config) : Int :=
  cfg.LIMIT_PER_MINUTE.getD 10

/-- `parseInt(config.LIMIT_PER_MINUTE_ALL)` with the NaN fallback to 10
(src/index.js:879-880). -/
def limitPerMinuteAllOf (cfg : Config) : Int :=
  cfg.LIMIT_PER_MINUTE_ALL.getD 10

/-- DBBinding.commentCountSinceByIpQuery (src/index.js:250-255):
`SELECT COUNT(*) WHERE created > ?1 AND ip = ?2` with `?1 = Date.now() - 600000`. -/
def windowCountByIp (db : List Comment) (now : Int) (ip : String) : Nat :=
  (db.filter (fun c => decide (c.created > now - 600000 ∧ c.ip = ip))).length

/-- DBBinding.commentCountSinceQuery (src/index.js:257-262). -/
def windowCountAll (db : List Comment) (now : Int) : Nat :=
  (db.filter (fun c => decide (c.created > now - 600000))).length

/-- limitFilter (src/index.js:874-892): a threshold of 0 is JS-falsy, so the
corresponding count query is skipped and the count treated as 0; the per-IP
check fires strictly above its threshold, then the global check. -/
def limitFilter (cfg : Config) (db : List Comment) (now : Int) (ip : String) :
    Except String Unit :=
  let limitPerMinute := limitPerMinuteOf cfg
  let limitPerMinuteAll := limitPerMinuteAllOf cfg
  let countByIp : Int := if limitPerMinute ≠ 0 then (windowCountByIp db now ip : Int) else 0
  let count : Int := if limitPerMinuteAll ≠ 0 then (windowCountAll db now : Int) else 0
  if countByIp > limitPerMinute then Except.error "发言频率过高"
  else if count > limitPerMinuteAll then Except.error "评论太火爆啦 >_< 请稍后再试"
  else Except.ok ()

/-! ### Config store (src/index.js:1036-1051) -/

/-- JS property lookup on an object represented as a key-value list
(first binding of a key wins, as bindings are kept unique). -/
def objGet {α : Type} : List (String × α) → String → Option α
  | [], _ => none
  | p :: rest, k => if p.1 = k then some p.2 else objGet rest k

/-- JS object spread `{ ...old, ...new }` (src/index.js:1046): every key of
`new` takes its `new` value, keys only in `old` keep their `old` value. -/
def objAssign {α : Type} (old new : List (String × α)) : List (String × α) :=
  old.filter (fun p => (objGet new p.1).isNone) ++ new

/-- writeConfig (src/index.js:1042-1051): an empty write request returns
immediately; otherwise the current record is fetched and the new keys are
shallow-overlaid onto it, and the union is persisted. -/
def writeConfig {α : Type} (stored newConfig : List (String × α)) :
    List (String × α) :=
  if newConfig.isEmpty then stored else objAssign stored newConfig

/-! ### Like toggle (src/index.js:736-756) -/

/-- DBBinding.commentByIdQuery with `.first()`: the first row of
`SELECT * FROM comment WHERE _id = ?1`. -/
def commentById : List Comment → String → Option Comment
  | [], _ => none
  | c :: rest, id => if c._id = id then some c else commentById rest id

/-- DBBinding.updateLikeStmt: `UPDATE comment SET like = ?2 WHERE _id = ?1`. -/
def updateLikeRun (db : List Comment) (id : String) (newLike : List String) :
    List Comment :=
  db.map (fun c => if c._id = id then { c with like := newLike } else c)

/-- The in-memory toggle of `like` (src/index.js:747-754):
`findIndex === -1` (the identity is absent) appends it, otherwise every
occurrence is filtered out. -/
def likeToggle (likes : List String) (uid : String) : List String :=
  if likes.contains uid = false then likes ++ [uid]
  else likes.filter (fun item => item ≠ uid)

/-- like (src/index.js:744-756): read the comment, toggle the caller in its
like set, write the full set back; a missing id is a no-op. -/
def like (db : List Comment) (id uid : String) : List Comment :=
  match commentById db id with
  | none => db
  | some comment => updateLikeRun db id (likeToggle comment.like uid)

/-! ### Response codes and admin mutations -/

/-- RES_CODE values imported from the external twikoo-func constants module
(src/index.js:46, 114); only the codes reached by the embedded handlers. -/
def RES_CODE_SUCCESS : Nat := 0

/-- RES_CODE.FAIL of the twikoo-func constants module. -/
def RES_CODE_FAIL : Nat := 1000

/-- RES_CODE.NEED_LOGIN of the twikoo-func constants module: the distinct
"must log in" authorization code. -/
def RES_CODE_NEED_LOGIN : Nat := 1024

/-- The `{ code, message }` envelope returned by the admin handlers. -/
structure AdminRes where
  code : Nat
  message : Option String := none
deriving DecidableEq

/-- A value assignable to a comment column through the admin `set` payload. -/
inductive FieldVal where
  | str (s : String)
  | num (n : Int)
  | boolean (b : Bool)
deriving DecidableEq

/-- Apply one `field = value` assignment of the dynamic UPDATE built by
getCommentSetStmt (src/index.js:198-214) to a row; only the modelled columns
are interpreted, any other field name leaves the row unchanged. -/
def applyField (c : Comment) : String × FieldVal → Comment
  | ("uid", FieldVal.str s) => { c with uid := s }
  | ("ip", FieldVal.str s) => { c with ip := s }
  | ("url", FieldVal.str s) => { c with url := s }
  | ("rid", FieldVal.str s) => { c with rid := s }
  | ("isSpam", FieldVal.boolean b) => { c with isSpam := if b then 1 else 0 }
  | ("isSpam", FieldVal.num n) => { c with isSpam := n.toNat }
  | ("top", FieldVal.boolean b) => { c with top := if b then 1 else 0 }
  | ("top", FieldVal.num n) => { c with top := n.toNat }
  | ("created", FieldVal.num n) => { c with created := n }
  | _ => c

/-- commentSetForAdmin (src/index.js:613-628): an admin sorts the field names
(`Object.keys(event.set).sort()`), binds the values in that order and updates
the row with the given id; any other requester gets the NEED_LOGIN code and no
row is touched. -/
def commentSetForAdmin (db : List Comment) (isAdminUser : Bool) (id : String)
    (set : List (String × FieldVal)) : AdminRes × List Comment :=
  if isAdminUser then
    let fields := (set.map Prod.fst).mergeSort (fun a b => decide (a ≤ b))
    let sortedSet := fields.filterMap
      (fun f => (set.find? (fun p => p.1 == f)).map (fun p => (f, p.2)))
    ({ code := RES_CODE_SUCCESS },
      db.map (fun c => if c._id == id then sortedSet.foldl applyField c else c))
  else
    ({ code := RES_CODE_NEED_LOGIN, message := some "请先登录" }, db)

/-- commentDeleteForAdmin (src/index.js:631-643): an admin deletes the row with
the given id; any other requester gets the NEED_LOGIN code and no row is touched. -/
def commentDeleteForAdmin (db : List Comment) (isAdminUser : Bool) (id : String) :
    AdminRes × List Comment :=
  if isAdminUser then
    ({ code := RES_CODE_SUCCESS }, db.filter (fun c => !(c._id == id)))
  else
    ({ code := RES_CODE_NEED_LOGIN, message := some "请先登录" }, db)

/-! ### Access-token echo (src/index.js:331-441, 476-482) -/

/-- The parsed request body fields relevant to identity. -/
structure ReqEvent where
  accessToken : Option String := none
deriving DecidableEq

/-- anonymousSignIn (src/index.js:476-482); `fresh` stands for the uuid
generated for this request.  JS truthiness makes an empty-string token count
as absent. -/
def anonymousSignIn (event : ReqEvent) (fresh : String) : String :=
  match event.accessToken with
  | some t => if t = "" then fresh else t
  | none => fresh

/-- The response envelope fields inspected by the echo step. -/
structure Res where
  code : Option Nat := none
  accessToken : Option String := none
deriving DecidableEq

/-- JS truthiness of `res.code`: absent or 0 (RES_CODE.SUCCESS) is falsy. -/
def codeTruthy : Option Nat → Bool
  | none => false
  | some n => n != 0

/-- The access-token echo at the end of fetch (src/index.js:434-436):
`if (!res.code && !request.body.accessToken) res.accessToken = accessToken`.
In the Workers runtime `request.body` is the raw body ReadableStream, not the
parsed JSON event, so `request.body.accessToken` is always undefined and
`!request.body.accessToken` always holds; the guard therefore reduces to
`!res.code`, and the echoed value is the global set at src/index.js:346. -/
def fetchEchoAccessToken (event : ReqEvent) (fresh : String) (res : Res) : Res :=
  if codeTruthy res.code = false then
    { res with accessToken := some (anonymousSignIn event fresh) }
  else res

/-! ### getRecentComments (src/index.js:971-1005) -/

/-- Outcome of the body of getRecentComments before the catch converts a thrown
error into a message.  The branch condition `event.urls && event.urls.length`
is JS-truthy only for a present non-empty list, in which case
recentCommentsByUrlQuery runs; its SQL (src/index.js:291-300) ends in
`(?3 OR rid = "") AND LIMIT ?4` — a dangling AND that fails at execution, which
we model as an error result.  Otherwise the code evaluates `event.urls.map`:
for a present empty list this maps over nothing and yields an empty result, but
for an absent `urls` it dereferences undefined and throws a TypeError. -/
def getRecentCommentsResult (urls : Option (List String)) (db : List Comment) :
    Except String (List Comment) :=
  match urls with
  | some l =>
    if l.length ≠ 0 then
      Except.error "D1_ERROR: near LIMIT: syntax error"
    else
      Except.ok []
  | none =>
    Except.error "Cannot read properties of undefined (reading map)"

/-- The `{ data?, message? }` envelope of getRecentComments. -/
structure RecentRes where
  data : Option (List Comment) := none
  message : Option String := none
deriving DecidableEq

/-- getRecentComments (src/index.js:971-1005): a thrown error is caught and
returned as `res.message` with no `data` field. -/
def getRecentComments (urls : Option (List String)) (db : List Comment) :
    RecentRes :=
  match getRecentCommentsResult urls db with
  | Except.ok rows => { data := some rows }
  | Except.error m => { data := none, message := some m }

/-! ### Concrete rows and configurations used by counterexamples and witnesses -/

/-- Row builder for concrete tables. -/
def mkRow (i u ipAddr pageUrl ridVal : String) (spam : Nat) (t : Int)
    (topVal : Nat) : Comment :=
  { _id := i, uid := u, ip := ipAddr, url := pageUrl, rid := ridVal,
    isSpam := spam, created := t, top := topVal, like := [] }

/-- Nine top-level comments on page "u": the hidden one authored by "alice"
plus eight newer visible ones, so the default page size 8 crowds it out. -/
def dbC2 : List Comment :=
  [mkRow "h" "alice" "" "u" "" 1 1 0,
   mkRow "v1" "bob" "" "u" "" 0 2 0,
   mkRow "v2" "bob" "" "u" "" 0 3 0,
   mkRow "v3" "bob" "" "u" "" 0 4 0,
   mkRow "v4" "bob" "" "u" "" 0 5 0,
   mkRow "v5" "bob" "" "u" "" 0 6 0,
   mkRow "v6" "bob" "" "u" "" 0 7 0,
   mkRow "v7" "bob" "" "u" "" 0 8 0,
   mkRow "v8" "bob" "" "u" "" 0 9 0]

/-- A single visible pinned top-level comment on page "u". -/
def pinnedRow : Comment := mkRow "p" "bob" "" "u" "" 0 5 1

/-- A deployment with the pinned-comment feature disabled. -/
def cfgTopDisabled : Config := { TOP_DISABLED := true }

/-- A deployment with a per-IP submission threshold of 1. -/
def cfgLimit1 : Config := { LIMIT_PER_MINUTE := some 1 }

/-- One prior submission from ip 1.2.3.4 inside the trailing 10-minute window
of `now = 1000000`. -/
def dbC4 : List Comment := [mkRow "c1" "x" "1.2.3.4" "u" "" 0 999999 0]

/-- A stored comment whose like set already contains one identity. -/
def rowLike : Comment :=
  { mkRow "L" "u0" "" "u" "" 0 1 0 with like := ["z"] }

/-! ### Basic lemmas about the sort -/

theorem length_insertDesc (c : Comment) (l : List Comment) :
    (insertDesc c l).length = l.length + 1 := by
  induction l with
  | nil => rfl
  | cons x xs ih =>
    rw [insertDesc]
    by_cases h : x.created ≤ c.created
    · rw [if_pos h]
      rfl
    · rw [if_neg h]
      simp [ih]

theorem mem_insertDesc (a c : Comment) (l : List Comment) :
    a ∈ insertDesc c l ↔ a = c ∨ a ∈ l := by
  induction l with
  | nil => simp [insertDesc]
  | cons x xs ih =>
    rw [insertDesc]
    by_cases h : x.created ≤ c.created
    · rw [if_pos h]
      simp
    · rw [if_neg h]
      simp [ih]
      tauto

theorem length_sortDesc (l : List Comment) : (sortDesc l).length = l.length := by
  induction l with
  | nil => rfl
  | cons x xs ih =>
    rw [sortDesc, length_insertDesc, ih]
    rfl

theorem mem_sortDesc (a : Comment) (l : List Comment) : a ∈ sortDesc l ↔ a ∈ l := by
  induction l with
  | nil => simp [sortDesc]
  | cons x xs ih =>
    rw [sortDesc, mem_insertDesc]
    simp [ih]

theorem pairwise_insertDesc (c : Comment) (l : List Comment)
    (h : List.Pairwise (fun a b => b.created ≤ a.created) l) :
    List.Pairwise (fun a b => b.created ≤ a.created) (insertDesc c l) := by
  induction l with
  | nil => simp [insertDesc]
  | cons x xs ih =>
    rw [insertDesc]
    rcases List.pairwise_cons.mp h with ⟨hx, hxs⟩
    by_cases hc : x.created ≤ c.created
    · rw [if_pos hc]
      refine List.pairwise_cons.mpr ⟨?_, h⟩
      intro b hb
      rcases List.mem_cons.mp hb with hb | hb
      · exact hb ▸ hc
      · exact le_trans (hx b hb) hc
    · rw [if_neg hc]
      refine List.pairwise_cons.mpr ⟨?_, ih hxs⟩
      intro b hb
      rcases (mem_insertDesc b c xs).mp hb with hb | hb
      · exact hb ▸ le_of_not_le hc
      · exact hx b hb

theorem pairwise_sortDesc (l : List Comment) :
    List.Pairwise (fun a b => b.created ≤ a.created) (sortDesc l) := by
  induction l with
  | nil => simp [sortDesc]
  | cons x xs ih => exact pairwise_insertDesc x (sortDesc xs) ih

/-- The splice-after-over-read step always leaves exactly the first `L` rows of
the sorted result set. -/
theorem take_splice_eq {α : Type} (S : List α) (L : Nat) :
    (if (S.take (L + 1)).length > L then
        (S.take (L + 1)).take L ++ (S.take (L + 1)).drop (L + 1)
      else S.take (L + 1)) = S.take L := by
  by_cases h : S.length ≤ L
  · rw [if_neg]
    · rw [List.take_of_length_le (le_trans h (Nat.le_succ L)),
        List.take_of_length_le h]
    · rw [List.length_take]
      omega
  · have hlen : (S.take (L + 1)).length = L + 1 := by
      rw [List.length_take]
      omega
    rw [if_pos (by omega), List.take_take, List.drop_eq_nil_of_le (le_of_eq hlen),
      List.append_nil]
    congr 1
    omega

/-- The non-pinned page equals the first `limit` rows of the sorted filtered set. -/
theorem commentGetMainPage_eq_take (db : List Comment) (cfg : Config) (uid : String)
    (isAdminUser : Bool) (url : String) (before : Option Int) :
    commentGetMainPage db cfg uid isAdminUser url before =
      (sortDesc (db.filter (fun c => decide (commentQueryWhere url (spamFlagOf isAdminUser) uid
        (before.getD MAX_TIMESTAMP_MILLIS) 0 c)))).take (commentPageLimit cfg) := by
  unfold commentGetMainPage commentGetMainRaw commentQueryRun
  exact take_splice_eq _ _

theorem commentGetMore_eq (db : List Comment) (cfg : Config) (uid : String)
    (isAdminUser : Bool) (url : String) (before : Option Int) :
    commentGetMore db cfg uid isAdminUser url before =
      decide ((db.filter (fun c => decide (commentQueryWhere url (spamFlagOf isAdminUser) uid
        (before.getD MAX_TIMESTAMP_MILLIS) 0 c))).length > commentPageLimit cfg) := by
  unfold commentGetMore commentGetMainRaw commentQueryRun
  rw [decide_eq_decide]
  rw [List.length_take, length_sortDesc]
  omega

/-- C1: for every COMMENT_GET request with page url `u`, optional cursor `before`
(defaulting to the far-future sentinel when absent) and configured page size `L`,
the store fetches `L + 1` visible non-pinned top-level comments with
`created < before` ordered by `created` descending; if `L + 1` rows come back the
extra row is dropped and `more = true`, otherwise `more = false`, so the returned
page is the first `min N L` rows (`N` the number of matching rows) in descending
`created` order. -/
theorem commentGet_first_page_spec (db : List Comment) (cfg : Config) (uid : String)
    (isAdminUser : Bool) (url : String) (before : Option Int) :
    commentGetMainPage db cfg uid isAdminUser url before =
      (sortDesc (db.filter (fun c => decide (commentQueryWhere url (spamFlagOf isAdminUser) uid
        (before.getD MAX_TIMESTAMP_MILLIS) 0 c)))).take (commentPageLimit cfg) ∧
    (commentGetMainPage db cfg uid isAdminUser url before).length =
      min (db.filter (fun c => decide (commentQueryWhere url (spamFlagOf isAdminUser) uid
        (before.getD MAX_TIMESTAMP_MILLIS) 0 c))).length (commentPageLimit cfg) ∧
    (commentGet db cfg uid isAdminUser url before).more =
      decide ((db.filter (fun c => decide (commentQueryWhere url (spamFlagOf isAdminUser) uid
        (before.getD MAX_TIMESTAMP_MILLIS) 0 c))).length > commentPageLimit cfg) ∧
    List.Pairwise (fun a b => b.created ≤ a.created)
      (commentGetMainPage db cfg uid isAdminUser url before) := by
  refine ⟨commentGetMainPage_eq_take db cfg uid isAdminUser url before, ?_, ?_, ?_⟩
  · rw [commentGetMainPage_eq_take, List.length_take, length_sortDesc, Nat.min_comm]
  · exact commentGetMore_eq db cfg uid isAdminUser url before
  · rw [commentGetMainPage_eq_take]
    exact List.Pairwise.take (pairwise_sortDesc _)

/-! ### Membership lemmas for the query runners -/

theorem mem_commentQueryRun {a : Comment} {db : List Comment} {url : String}
    {spamFlag : Nat} {uid : String} {before : Int} {top : Nat} {lim : Nat}
    (h : a ∈ commentQueryRun db url spamFlag uid before top lim) :
    commentQueryWhere url spamFlag uid before top a := by
  unfold commentQueryRun at h
  have hmem := List.mem_of_mem_take h
  rw [mem_sortDesc] at hmem
  rcases List.mem_filter.mp hmem with ⟨_, hp⟩
  exact of_decide_eq_true hp

theorem mem_replyQueryRun {a : Comment} {db : List Comment} {url : String}
    {spamFlag : Nat} {uid : String} {rids : List String}
    (h : a ∈ replyQueryRun db url spamFlag uid rids) :
    replyQueryWhere url spamFlag uid rids a := by
  unfold replyQueryRun at h
  rcases List.mem_filter.mp h with ⟨_, hp⟩
  exact of_decide_eq_true hp

theorem mem_commentGet_data_visible {a : Comment} {db : List Comment}
    {cfg : Config} {uid : String} {isAdminUser : Bool} {url : String}
    {before : Option Int}
    (h : a ∈ (commentGet db cfg uid isAdminUser url before).data) :
    visibleTo isAdminUser uid a := by
  unfold commentGet at h
  rcases List.mem_append.mp h with h | h
  · unfold commentGetMerged at h
    rcases List.mem_append.mp h with h | h
    · unfold commentGetTop at h
      by_cases hc : cfg.TOP_DISABLED = false ∧ (before = none ∨ before = some 0)
      · rw [if_pos hc] at h
        exact (mem_commentQueryRun h).2.1
      · rw [if_neg hc] at h
        exact absurd h (List.not_mem_nil a)
    · rw [commentGetMainPage_eq_take] at h
      have hmem := List.mem_of_mem_take h
      rw [mem_sortDesc] at hmem
      rcases List.mem_filter.mp hmem with ⟨_, hp⟩
      exact (of_decide_eq_true hp).2.1
  · exact (mem_replyQueryRun h).2.1

/-! ### C2 -/

/-- C2 counterexample: the hidden comment authored by the requester satisfies
the visibility predicate, yet it is absent from the rows commentGet returns,
because eight newer visible comments fill the default page; so "present in the
result when the requester's identity token equals the comment's uid" and "the
rows returned are exactly those satisfying the visibility predicate" both fail. -/
theorem commentGet_visibility_counterexample :
    (mkRow "h" "alice" "" "u" "" 1 1 0).isSpam = 1 ∧
    (mkRow "h" "alice" "" "u" "" 1 1 0).uid = "alice" ∧
    mkRow "h" "alice" "" "u" "" 1 1 0 ∈ dbC2 ∧
    visibleTo false "alice" (mkRow "h" "alice" "" "u" "" 1 1 0) ∧
    mkRow "h" "alice" "" "u" "" 1 1 0 ∉
      (commentGet dbC2 {} "alice" false "u" none).data := by
  decide

/-- C2 (amended): every row commentGet returns satisfies the visibility
predicate of the read queries; at the predicate level a hidden comment is
visible exactly to its author or an admin, and an admin sees every stored row;
the returned count counts exactly the top-level comments satisfying the
predicate.  Presence of an individual visible comment in the returned data is
additionally subject to the pagination window. -/
theorem commentGet_visibility_spec (db : List Comment) (cfg : Config)
    (uid : String) (isAdminUser : Bool) (url : String) (before : Option Int) :
    (∀ a ∈ (commentGet db cfg uid isAdminUser url before).data,
      visibleTo isAdminUser uid a) ∧
    (∀ c : Comment, c.isSpam = 1 →
      (visibleTo isAdminUser uid c ↔ (c.uid = uid ∨ isAdminUser = true))) ∧
    (∀ c : Comment, c.isSpam ≤ 1 → visibleTo true uid c) ∧
    (commentGet db cfg uid isAdminUser url before).count =
      (db.filter (fun c =>
        decide (commentCountWhere url (spamFlagOf isAdminUser) uid c))).length := by
  refine ⟨fun a ha => mem_commentGet_data_visible ha, ?_, ?_, rfl⟩
  · intro c hc
    cases isAdminUser with
    | false => simp [visibleTo, spamFlagOf, hc]
    | true => simp [visibleTo, spamFlagOf, hc]
  · intro c hc
    left
    simp only [spamFlagOf, if_true]
    omega

/-- Closed instantiation of commentGet_visibility_spec at a concrete table,
requester and page. -/
theorem commentGet_visibility_spec_witness :
    (∀ a ∈ (commentGet dbC2 {} "alice" false "u" none).data,
      visibleTo false "alice" a) ∧
    (∀ c : Comment, c.isSpam = 1 →
      (visibleTo false "alice" c ↔ (c.uid = "alice" ∨ false = true))) ∧
    (∀ c : Comment, c.isSpam ≤ 1 → visibleTo true "alice" c) ∧
    (commentGet dbC2 {} "alice" false "u" none).count =
      (dbC2.filter (fun c =>
        decide (commentCountWhere "u" (spamFlagOf false) "alice" c))).length :=
  commentGet_visibility_spec dbC2 {} "alice" false "u" none

/-! ### C3 -/

/-- C3 counterexample: with the TOP_DISABLED deployment switch set, an
uncursored request does not fetch the pinned comment at all (the returned data
is empty although a visible pinned comment exists), and even with the default
configuration the returned top-level count includes the pinned comment — both
contradict the claim that pinned comments are fetched on every uncursored
request and never affect the count. -/
theorem commentGet_pinned_counterexample :
    pinnedRow.top = 1 ∧ pinnedRow.isSpam = 0 ∧
    (commentGet [pinnedRow] cfgTopDisabled "x" false "u" none).data = [] ∧
    (commentGet [pinnedRow] {} "x" false "u" none).count = 1 := by
  decide

/-- C3 (amended): when no cursor was supplied (a cursor of 0 also counts as
absent by JS truthiness) and pinning is not disabled by TOP_DISABLED, pinned
top-level comments are fetched separately — bounded not by the page size but by
the hard ceiling 500 — and prepended before every non-pinned comment; pinned
comments do not affect the `more` flag, but they are included in the returned
top-level count; a pinned fetch never occurs for a nonzero cursor or a
TOP_DISABLED deployment. -/
theorem commentGet_pinned_spec (db : List Comment) (cfg : Config) (uid : String)
    (isAdminUser : Bool) (url : String) (before : Option Int) :
    ((cfg.TOP_DISABLED = false ∧ (before = none ∨ before = some 0)) →
      commentGetTop db cfg uid isAdminUser url before =
        (sortDesc (db.filter (fun c => decide (commentQueryWhere url
          (spamFlagOf isAdminUser) uid MAX_TIMESTAMP_MILLIS 1 c)))).take MAX_QUERY_LIMIT) ∧
    (commentGetTop db cfg uid isAdminUser url before).length ≤ MAX_QUERY_LIMIT ∧
    (∀ c ∈ commentGetTop db cfg uid isAdminUser url before, c.top = 1) ∧
    commentGetMerged db cfg uid isAdminUser url before =
      commentGetTop db cfg uid isAdminUser url before ++
        commentGetMainPage db cfg uid isAdminUser url before ∧
    (cfg.TOP_DISABLED = true → commentGetTop db cfg uid isAdminUser url before = []) ∧
    (∀ t : Int, before = some t → t ≠ 0 →
      commentGetTop db cfg uid isAdminUser url before = []) ∧
    (commentGet db cfg uid isAdminUser url before).more =
      decide ((db.filter (fun c => decide (commentQueryWhere url (spamFlagOf isAdminUser) uid
        (before.getD MAX_TIMESTAMP_MILLIS) 0 c))).length > commentPageLimit cfg) ∧
    (commentGet db cfg uid isAdminUser url before).count =
      (db.filter (fun c =>
        decide (commentCountWhere url (spamFlagOf isAdminUser) uid c))).length := by
  refine ⟨?_, ?_, ?_, rfl, ?_, ?_, commentGetMore_eq db cfg uid isAdminUser url before, rfl⟩
  · intro hc
    unfold commentGetTop commentQueryRun
    rw [if_pos hc]
  · unfold commentGetTop
    by_cases hc : cfg.TOP_DISABLED = false ∧ (before = none ∨ before = some 0)
    · rw [if_pos hc]
      unfold commentQueryRun
      exact List.length_take_le _ _
    · rw [if_neg hc]
      exact Nat.zero_le _
  · intro c hc
    unfold commentGetTop at hc
    by_cases h : cfg.TOP_DISABLED = false ∧ (before = none ∨ before = some 0)
    · rw [if_pos h] at hc
      exact (mem_commentQueryRun hc).2.2.2.1
    · rw [if_neg h] at hc
      exact absurd hc (List.not_mem_nil c)
  · intro h
    unfold commentGetTop
    rw [if_neg]
    intro hcontra
    rw [h] at hcontra
    exact Bool.noConfusion hcontra.1
  · intro t ht hne
    unfold commentGetTop
    rw [if_neg]
    intro hcontra
    rcases hcontra.2 with h | h
    · rw [ht] at h
      exact Option.noConfusion h
    · rw [ht] at h
      exact hne (Option.some.injEq t 0 ▸ h)

/-- Closed instantiation of commentGet_pinned_spec at a concrete table and
configuration, discharging the uncursored-and-enabled hypothesis. -/
theorem commentGet_pinned_spec_witness :
    commentGetTop [pinnedRow] {} "x" false "u" none =
      (sortDesc ([pinnedRow].filter (fun c => decide (commentQueryWhere "u"
        (spamFlagOf false) "x" MAX_TIMESTAMP_MILLIS 1 c)))).take MAX_QUERY_LIMIT ∧
    (commentGetTop [pinnedRow] {} "x" false "u" none).length ≤ MAX_QUERY_LIMIT ∧
    (∀ c ∈ commentGetTop [pinnedRow] {} "x" false "u" none, c.top = 1) :=
  ⟨(commentGet_pinned_spec [pinnedRow] {} "x" false "u" none).1 ⟨rfl, Or.inl rfl⟩,
   (commentGet_pinned_spec [pinnedRow] {} "x" false "u" none).2.1,
   (commentGet_pinned_spec [pinnedRow] {} "x" false "u" none).2.2.1⟩

/-! ### C5 -/

/-- C5 counterexample: for an empty table the resolved page is empty, yet the
reply membership query is still issued — with zero id parameters — instead of
being short-circuited. -/
theorem commentGet_reply_shortcircuit_counterexample :
    commentGetMerged [] {} "x" false "u" none = [] ∧
    commentGetReplyQueryIssuedArity [] {} "x" false "u" none = some 0 ∧
    commentGetReplyQueryIssuedArity [] {} "x" false "u" none ≠ none := by
  decide

/-- C5 (amended): the reply membership query is issued unconditionally, with
exactly one id parameter per resolved top-level comment; when the resolved page
is empty it is issued with zero parameters, whose empty IN list matches no row,
so the response data is empty. -/
theorem commentGet_reply_query_spec (db : List Comment) (cfg : Config)
    (uid : String) (isAdminUser : Bool) (url : String) (before : Option Int) :
    commentGetReplyQueryIssuedArity db cfg uid isAdminUser url before =
      some (commentGetMerged db cfg uid isAdminUser url before).length ∧
    (commentGetMerged db cfg uid isAdminUser url before = [] →
      commentGetReplies db cfg uid isAdminUser url before = [] ∧
      (commentGet db cfg uid isAdminUser url before).data = []) := by
  refine ⟨rfl, fun h => ?_⟩
  have hrep : commentGetReplies db cfg uid isAdminUser url before = [] := by
    unfold commentGetReplies commentGetReplyRids replyQueryRun
    rw [h]
    simp [replyQueryWhere]
  refine ⟨hrep, ?_⟩
  unfold commentGet
  simp only
  rw [h, hrep, List.append_nil]

/-- Closed instantiation of commentGet_reply_query_spec at the empty table,
discharging the empty-page hypothesis. -/
theorem commentGet_reply_query_spec_witness :
    commentGetReplyQueryIssuedArity [] {} "y" false "p" none =
      some (commentGetMerged [] {} "y" false "p" none).length ∧
    (commentGetReplies [] {} "y" false "p" none = [] ∧
      (commentGet [] {} "y" false "p" none).data = []) :=
  ⟨(commentGet_reply_query_spec [] {} "y" false "p" none).1,
   (commentGet_reply_query_spec [] {} "y" false "p" none).2 (by decide)⟩

/-! ### C4 -/

/-- C4 counterexample: with threshold T = 1 and exactly T = 1 prior submission
from the same IP inside the window, the next submission — the (T+1)-th — is
accepted, contradicting the claim that it is rejected; the guard fires only
strictly above the threshold. -/
theorem limitFilter_counterexample :
    limitPerMinuteOf cfgLimit1 = 1 ∧
    windowCountByIp dbC4 1000000 "1.2.3.4" = 1 ∧
    limitFilter cfgLimit1 dbC4 1000000 "1.2.3.4" = Except.ok () := by
  refine ⟨rfl, rfl, rfl⟩

/-- C4 (amended): with per-IP threshold T ≠ 0, the per-IP rejection fires
exactly when the number of prior submissions from that IP inside the 10-minute
window strictly exceeds T — so the (T+1)-th submission (T priors) is accepted
and the (T+2)-th is rejected; a submission whose same-IP priors have all aged
out of the window sees a window count of 0; a threshold configured as 0 skips
the count and that check never rejects. -/
theorem limitFilter_spec (cfg : Config) (db : List Comment) (now : Int) (ip : String) :
    (limitPerMinuteOf cfg ≠ 0 →
      (limitFilter cfg db now ip = Except.error "发言频率过高" ↔
        (windowCountByIp db now ip : Int) > limitPerMinuteOf cfg)) ∧
    (limitPerMinuteOf cfg = 0 →
      limitFilter cfg db now ip ≠ Except.error "发言频率过高") ∧
    (limitPerMinuteOf cfg ≠ 0 →
      (windowCountByIp db now ip : Int) ≤ limitPerMinuteOf cfg →
      (if limitPerMinuteAllOf cfg ≠ 0 then (windowCountAll db now : Int) else 0) ≤
        limitPerMinuteAllOf cfg →
      limitFilter cfg db now ip = Except.ok ()) ∧
    ((∀ c ∈ db, c.ip = ip → c.created ≤ now - 600000) →
      windowCountByIp db now ip = 0) := by
  have hW : limitFilter cfg db now ip =
      (if (if limitPerMinuteOf cfg ≠ 0 then (windowCountByIp db now ip : Int) else 0) >
          limitPerMinuteOf cfg then Except.error "发言频率过高"
        else if (if limitPerMinuteAllOf cfg ≠ 0 then (windowCountAll db now : Int) else 0) >
            limitPerMinuteAllOf cfg then Except.error "评论太火爆啦 >_< 请稍后再试"
          else Except.ok ()) := rfl
  refine ⟨?_, ?_, ?_, ?_⟩
  · intro hT
    rw [hW, if_pos hT]
    constructor
    · intro herr
      by_contra hle
      rw [if_neg hle] at herr
      by_cases hg : (if limitPerMinuteAllOf cfg ≠ 0 then (windowCountAll db now : Int) else 0) >
          limitPerMinuteAllOf cfg
      · rw [if_pos hg] at herr
        have := Except.error.inj herr
        exact absurd this (by decide)
      · rw [if_neg hg] at herr
        exact Except.noConfusion herr
    · intro hgt
      rw [if_pos hgt]
  · intro hT0
    have hinner : (if limitPerMinuteOf cfg ≠ 0 then (windowCountByIp db now ip : Int) else 0) =
        0 := if_neg (fun hne => hne hT0)
    rw [hW, hinner, hT0, if_neg (lt_irrefl (0 : Int))]
    by_cases hg : (if limitPerMinuteAllOf cfg ≠ 0 then (windowCountAll db now : Int) else 0) >
        limitPerMinuteAllOf cfg
    · rw [if_pos hg]
      intro herr
      have := Except.error.inj herr
      exact absurd this (by decide)
    · rw [if_neg hg]
      exact fun herr => Except.noConfusion herr
  · intro hT hip hall
    rw [hW, if_pos hT, if_neg (not_lt.mpr hip), if_neg (not_lt.mpr hall)]
  · intro hall
    unfold windowCountByIp
    rw [List.length_eq_zero, List.filter_eq_nil_iff]
    intro c hc
    simp only [decide_eq_true_eq, not_and]
    intro hcr hip
    have := hall c hc hip
    omega

/-- Closed instantiation of limitFilter_spec at threshold 1 and one in-window
prior, discharging the nonzero-threshold and below-threshold hypotheses. -/
theorem limitFilter_spec_witness :
    (limitFilter cfgLimit1 dbC4 1000000 "1.2.3.4" = Except.error "发言频率过高" ↔
      (windowCountByIp dbC4 1000000 "1.2.3.4" : Int) > limitPerMinuteOf cfgLimit1) ∧
    limitFilter cfgLimit1 dbC4 1000000 "1.2.3.4" = Except.ok () :=
  ⟨(limitFilter_spec cfgLimit1 dbC4 1000000 "1.2.3.4").1 (by decide),
   (limitFilter_spec cfgLimit1 dbC4 1000000 "1.2.3.4").2.2.1 (by decide) (by decide)
     (by decide)⟩

/-! ### C6 -/

theorem objGet_filter_keep {α : Type} (l : List (String × α))
    (q : String × α → Bool) (k : String) (h : ∀ p : String × α, p.1 = k → q p = true) :
    objGet (l.filter q) k = objGet l k := by
  induction l with
  | nil => rfl
  | cons p rest ih =>
    rw [List.filter_cons]
    by_cases hp : p.1 = k
    · rw [if_pos (h p hp)]
      simp only [objGet, if_pos hp]
    · by_cases hq : q p = true
      · rw [if_pos hq]
        simp only [objGet, if_neg hp]
        exact ih
      · rw [if_neg hq]
        simp only [objGet, if_neg hp]
        exact ih

theorem objGet_filter_drop {α : Type} (l : List (String × α))
    (q : String × α → Bool) (k : String) (h : ∀ p : String × α, p.1 = k → q p = false) :
    objGet (l.filter q) k = none := by
  induction l with
  | nil => rfl
  | cons p rest ih =>
    rw [List.filter_cons]
    by_cases hq : q p = true
    · rw [if_pos hq]
      have hp : ¬p.1 = k := by
        intro hp
        rw [h p hp] at hq
        exact Bool.noConfusion hq
      simp only [objGet, if_neg hp]
      exact ih
    · rw [if_neg hq]
      exact ih

theorem objGet_append_some {α : Type} (l₁ l₂ : List (String × α)) (k : String)
    (v : α) (h : objGet l₁ k = some v) : objGet (l₁ ++ l₂) k = some v := by
  induction l₁ with
  | nil => exact Option.noConfusion h
  | cons p rest ih =>
    rw [List.cons_append]
    by_cases hp : p.1 = k
    · simp only [objGet, if_pos hp] at h ⊢
      exact h
    · simp only [objGet, if_neg hp] at h ⊢
      exact ih h

theorem objGet_append_none {α : Type} (l₁ l₂ : List (String × α)) (k : String)
    (h : objGet l₁ k = none) : objGet (l₁ ++ l₂) k = objGet l₂ k := by
  induction l₁ with
  | nil => rfl
  | cons p rest ih =>
    rw [List.cons_append]
    by_cases hp : p.1 = k
    · simp only [objGet, if_pos hp] at h
      exact Option.noConfusion h
    · simp only [objGet, if_neg hp] at h ⊢
      exact ih h

/-- Lookup through the shallow overlay: a key written by the new map reads back
its new value. -/
theorem objGet_objAssign_of_new {α : Type} (old new : List (String × α))
    (k : String) (v : α) (h : objGet new k = some v) :
    objGet (objAssign old new) k = some v := by
  unfold objAssign
  have hdrop : objGet (old.filter (fun p => (objGet new p.1).isNone)) k = none := by
    refine objGet_filter_drop _ _ _ ?_
    intro p hp
    rw [hp, h]
    rfl
  rw [objGet_append_none _ _ _ hdrop]
  exact h

/-- Lookup through the shallow overlay: a key absent from the new map keeps its
old value. -/
theorem objGet_objAssign_of_old {α : Type} (old new : List (String × α))
    (k : String) (h : objGet new k = none) :
    objGet (objAssign old new) k = objGet old k := by
  unfold objAssign
  have hkeep : objGet (old.filter (fun p => (objGet new p.1).isNone)) k = objGet old k := by
    refine objGet_filter_keep _ _ _ ?_
    intro p hp
    rw [hp, h]
    rfl
  cases ho : objGet old k with
  | none =>
    rw [objGet_append_none _ _ _ (hkeep.trans ho), h]
  | some v =>
    rw [objGet_append_some _ _ _ _ (hkeep.trans ho)]

/-- C6: from every starting configuration map, writing `{a: v1}` and then
`{b: v2}` yields a stored map in which both `a = v1` and `b = v2` read back
(writes shallow-merge, never overwrite wholesale), and writing the empty map is
a no-op on the stored configuration. -/
theorem writeConfig_merge_spec {α : Type} (stored : List (String × α)) (v1 v2 : α) :
    objGet (writeConfig (writeConfig stored [("a", v1)]) [("b", v2)]) "a" = some v1 ∧
    objGet (writeConfig (writeConfig stored [("a", v1)]) [("b", v2)]) "b" = some v2 ∧
    (∀ m : List (String × α), writeConfig m ([] : List (String × α)) = m) := by
  have h1 : writeConfig stored [("a", v1)] = objAssign stored [("a", v1)] := rfl
  have h2 : writeConfig (objAssign stored [("a", v1)]) [("b", v2)] =
      objAssign (objAssign stored [("a", v1)]) [("b", v2)] := rfl
  rw [h1, h2]
  refine ⟨?_, ?_, fun m => rfl⟩
  · rw [objGet_objAssign_of_old _ _ _ (by rfl),
      objGet_objAssign_of_new _ _ _ _ (by rfl)]
  · rw [objGet_objAssign_of_new _ _ _ _ (by rfl)]

/-! ### C7 -/

theorem mem_likeToggle_twice (likes : List String) (uid x : String) :
    x ∈ likeToggle (likeToggle likes uid) uid ↔ x ∈ likes := by
  by_cases h : uid ∈ likes
  · have hc : likes.contains uid = true := List.elem_eq_true_of_mem h
    have h1 : likeToggle likes uid = likes.filter (fun item => item ≠ uid) := by
      unfold likeToggle
      rw [hc]
      rfl
    have hvanish : uid ∉ likes.filter (fun item => item ≠ uid) := by
      intro hmem
      rcases List.mem_filter.mp hmem with ⟨_, hne⟩
      simp at hne
    have hc2 : (likes.filter (fun item => item ≠ uid)).contains uid = false := by
      rcases hb : (likes.filter (fun item => item ≠ uid)).contains uid with _ | _
      · rfl
      · exact absurd (List.mem_of_elem_eq_true hb) hvanish
    have h2 : likeToggle (likes.filter (fun item => item ≠ uid)) uid =
        likes.filter (fun item => item ≠ uid) ++ [uid] := by
      unfold likeToggle
      rw [hc2]
      rfl
    rw [h1, h2]
    by_cases hx : x = uid
    · subst hx
      simp [h]
    · simp [List.mem_filter, hx]
  · have hc : likes.contains uid = false := by
      rcases hb : likes.contains uid with _ | _
      · rfl
      · exact absurd (List.mem_of_elem_eq_true hb) h
    have h1 : likeToggle likes uid = likes ++ [uid] := by
      unfold likeToggle
      rw [hc]
      rfl
    have hc2 : (likes ++ [uid]).contains uid = true :=
      List.elem_eq_true_of_mem (by simp)
    have h2 : likeToggle (likes ++ [uid]) uid =
        (likes ++ [uid]).filter (fun item => item ≠ uid) := by
      unfold likeToggle
      rw [hc2]
      rfl
    rw [h1, h2, List.filter_append]
    have : ([uid].filter (fun item => item ≠ uid)) = [] := by simp
    rw [this, List.append_nil]
    constructor
    · intro hmem
      exact (List.mem_filter.mp hmem).1
    · intro hmem
      refine List.mem_filter.mpr ⟨hmem, ?_⟩
      simp
      intro heq
      exact h (heq ▸ hmem)

theorem commentById_updateLikeRun (db : List Comment) (id : String)
    (nl : List String) :
    commentById (updateLikeRun db id nl) id =
      (commentById db id).map (fun c => { c with like := nl }) := by
  induction db with
  | nil => rfl
  | cons c rest ih =>
    unfold updateLikeRun at ih ⊢
    rw [List.map_cons]
    by_cases h : c._id = id
    · rw [if_pos h]
      have hid : ({ c with like := nl } : Comment)._id = c._id := rfl
      simp only [commentById, hid, if_pos h]
      rfl
    · rw [if_neg h]
      simp only [commentById, if_neg h]
      exact ih

/-- Unfolding of the like operation when the comment is found. -/
theorem like_eq_of_found (db : List Comment) (id uid : String) (c : Comment)
    (h : commentById db id = some c) :
    like db id uid = updateLikeRun db id (likeToggle c.like uid) := by
  unfold like
  rw [h]

/-- C7: for an existing comment and a single caller acting alone, applying the
like toggle twice returns the comment's like set to its original membership:
after two like operations the row is found with a like list whose membership
coincides with the original one. -/
theorem like_twice_membership (db : List Comment) (id uid : String) (c : Comment)
    (h : commentById db id = some c) :
    commentById (like (like db id uid) id uid) id =
      some { c with like := likeToggle (likeToggle c.like uid) uid } ∧
    (∀ x, x ∈ likeToggle (likeToggle c.like uid) uid ↔ x ∈ c.like) := by
  have hfind1 : commentById (like db id uid) id =
      some { c with like := likeToggle c.like uid } := by
    rw [like_eq_of_found db id uid c h, commentById_updateLikeRun, h]
    rfl
  have hstep2 : like (like db id uid) id uid =
      updateLikeRun (like db id uid) id (likeToggle (likeToggle c.like uid) uid) :=
    like_eq_of_found (like db id uid) id uid { c with like := likeToggle c.like uid } hfind1
  refine ⟨?_, fun x => mem_likeToggle_twice c.like uid x⟩
  rw [hstep2, commentById_updateLikeRun, hfind1]
  rfl

/-- Closed instantiation of like_twice_membership at a one-row table,
discharging the existing-comment hypothesis. -/
theorem like_twice_membership_witness :
    commentById (like (like [rowLike] "L" "w") "L" "w") "L" =
      some { rowLike with like := likeToggle (likeToggle rowLike.like "w") "w" } ∧
    (∀ x, x ∈ likeToggle (likeToggle rowLike.like "w") "w" ↔ x ∈ rowLike.like) :=
  like_twice_membership [rowLike] "L" "w" rowLike (by decide)

/-! ### C8 -/

/-- C8: a COMMENT_SET_FOR_ADMIN or COMMENT_DELETE_FOR_ADMIN request from a
requester who is not the admin returns the distinct NEED_LOGIN code and
performs no mutation: the comment table is unchanged. -/
theorem admin_mutation_need_login (db : List Comment) (id : String)
    (fieldSet : List (String × FieldVal)) :
    (commentSetForAdmin db false id fieldSet).1.code = RES_CODE_NEED_LOGIN ∧
    (commentSetForAdmin db false id fieldSet).2 = db ∧
    (commentDeleteForAdmin db false id).1.code = RES_CODE_NEED_LOGIN ∧
    (commentDeleteForAdmin db false id).2 = db ∧
    RES_CODE_NEED_LOGIN ≠ RES_CODE_SUCCESS ∧
    RES_CODE_NEED_LOGIN ≠ RES_CODE_FAIL :=
  ⟨rfl, rfl, rfl, rfl, by decide, by decide⟩

/-! ### C9 -/

/-- C9 counterexample: a caller that already supplied an accessToken still
receives an accessToken field in the response of a code-less (successful)
operation — the supplied-token check reads a property of the raw body stream,
which is always undefined — contradicting the claim that only token-less
callers get the echo. -/
theorem fetchEcho_counterexample :
    (ReqEvent.mk (some "tok")).accessToken = some "tok" ∧
    (fetchEchoAccessToken (ReqEvent.mk (some "tok")) "fresh"
      (Res.mk none none)).accessToken = some "tok" := by
  decide

/-- C9 (amended): the response carries an accessToken field exactly when
`res.code` is falsy (absent or 0), regardless of whether the caller supplied a
token — the guard at src/index.js:434 tests `request.body.accessToken`, a
property of the raw body stream that is always undefined, so supplying a token
does not suppress the echo; when the echo happens, the echoed value is the
caller-supplied token if one was given (and nonempty), else the freshly issued
one. -/
theorem fetchEcho_spec (event : ReqEvent) (fresh : String) (res : Res)
    (h : res.accessToken = none) :
    ((fetchEchoAccessToken event fresh res).accessToken.isSome = true ↔
      codeTruthy res.code = false) ∧
    (codeTruthy res.code = false →
      (fetchEchoAccessToken event fresh res).accessToken =
        some (anonymousSignIn event fresh)) := by
  unfold fetchEchoAccessToken
  by_cases hc : codeTruthy res.code = false
  · rw [if_pos hc]
    exact ⟨by simp [hc], fun _ => rfl⟩
  · rw [if_neg hc]
    constructor
    · rw [h]
      simp only [Option.isSome_none]
      constructor
      · intro hfalse
        exact Bool.noConfusion hfalse
      · intro hcf
        exact absurd hcf hc
    · intro hcf
      exact absurd hcf hc

/-- Closed instantiation of fetchEcho_spec at a token-less request and an
error response, discharging the no-prior-accessToken hypothesis. -/
theorem fetchEcho_spec_witness :
    ((fetchEchoAccessToken (ReqEvent.mk none) "f"
        (Res.mk (some 1000) none)).accessToken.isSome = true ↔
      codeTruthy (some 1000) = false) ∧
    (codeTruthy (some 1000) = false →
      (fetchEchoAccessToken (ReqEvent.mk none) "f"
        (Res.mk (some 1000) none)).accessToken =
          some (anonymousSignIn (ReqEvent.mk none) "f")) :=
  fetchEcho_spec (ReqEvent.mk none) "f" (Res.mk (some 1000) none) rfl

/-! ### C10 -/

/-- C10: a GET_RECENT_COMMENTS request without a `urls` field produces a
response with only an error message and no data field: the code path for a
missing `urls` dereferences the absent list, and the thrown error is caught
and converted into `res.message`. -/
theorem getRecentComments_missing_urls (db : List Comment) :
    (getRecentComments none db).data = none ∧
    ((getRecentComments none db).message).isSome = true :=
  ⟨rfl, rfl⟩

end Twikoo
